import Mathlib

/-!
Verification of the testnet deployment script `deploy/deploy_testnet.py` of the
raiden-token repository, against its design specification.

The script itself is straight-line orchestration code; the two algorithmic
collaborators it imports from the `simulation` module (`getAuctionFactors`, the
Auction Factor Solver, and `auction_simulation`, the Bid Simulation Scheduler)
are not among the sources, so those two are modelled from the specification
(spec §4.1, §4.2, §4.3 and §7) and marked as such in their doc comments.
Everything else is embedded directly from `deploy_testnet.py`.
-/

namespace DeployTestnet

/-- Process-wide scale constant, `multiplier = 10**18` (deploy_testnet.py, line 16). -/
def multiplier : ℤ := 10 ^ 18

/-- Modelled from the spec: the Price Function Model of spec §4.1 (the on-chain
`DutchAuction.price` evaluation is not among the sources):
`price(elapsed, factor, constant) = floor(factor * SCALE / (constant + elapsed))`,
with floor integer division (`Int.fdiv`). Arguments: elapsed time, price factor,
price constant `k`, scale. -/
def price (elapsed f k scale : ℤ) : ℤ :=
  Int.fdiv (f * scale) (k + elapsed)

/-- Solver error taxonomy from spec §7. -/
inductive SolverError where
  | invalidSample
  | degenerateSample
  | unsolvablePriceModel
deriving DecidableEq

/-- Modelled from the spec: the closed-form price constant of §4.2,
`constant = (p2*t2 - p1*t1) / (p1 - p2)`, under integer truncation. -/
def solverConstant (p1 t1 p2 t2 : ℤ) : ℤ :=
  Int.tdiv (p2 * t2 - p1 * t1) (p1 - p2)

/-- Modelled from the spec: the closed-form price factor of §4.2,
`factor = p1*(constant + t1) / SCALE`, under integer truncation. -/
def solverFactor (p1 t1 p2 t2 scale : ℤ) : ℤ :=
  Int.tdiv (p1 * (solverConstant p1 t1 p2 t2 + t1)) scale

/-- Modelled from the spec: `getAuctionFactors`, the Auction Factor Solver
(imported by the script from the `simulation` module, whose source is not
included). Per spec §4.2 and §7: negative inputs give `InvalidSampleError`,
equal prices give `DegenerateSampleError`, otherwise the closed-form inversion
is computed and the result guarantee is checked — if substituting the derived
parameters back into the Price Function Model does not reproduce both samples
exactly, the solver reports `UnsolvablePriceModel`. -/
def getAuctionFactors (p1 t1 p2 t2 scale : ℤ) : Except SolverError (ℤ × ℤ) :=
  if p1 < 0 ∨ t1 < 0 ∨ p2 < 0 ∨ t2 < 0 then
    .error .invalidSample
  else if p1 = p2 then
    .error .degenerateSample
  else if price t1 (solverFactor p1 t1 p2 t2 scale) (solverConstant p1 t1 p2 t2) scale = p1 ∧
      price t2 (solverFactor p1 t1 p2 t2 scale) (solverConstant p1 t1 p2 t2) scale = p2 then
    .ok (solverFactor p1 t1 p2 t2 scale, solverConstant p1 t1 p2 t2)
  else
    .error .unsolvablePriceModel

/-- C1: for every pair of price points with distinct nonnegative prices and
nonnegative elapsed times, the solver either returns a `(factor, constant)` pair
that reproduces both input samples exactly under the price function model, or it
reports `UnsolvablePriceModel`; it never returns a pair that fails to reproduce
the inputs. -/
theorem getAuctionFactors_reproduces_or_fails (p1 t1 p2 t2 scale : ℤ)
    (hp1 : 0 ≤ p1) (ht1 : 0 ≤ t1) (hp2 : 0 ≤ p2) (ht2 : 0 ≤ t2) (hne : p1 ≠ p2) :
    (∃ f k, getAuctionFactors p1 t1 p2 t2 scale = .ok (f, k) ∧
        price t1 f k scale = p1 ∧ price t2 f k scale = p2) ∨
      getAuctionFactors p1 t1 p2 t2 scale = .error .unsolvablePriceModel := by
  unfold getAuctionFactors
  rw [if_neg (by omega), if_neg hne]
  split_ifs with h
  · exact .inl ⟨_, _, rfl, h.1, h.2⟩
  · exact .inr rfl

/-- Witness for C1 at the concrete sample `(4, 0)`, `(2, 2)` with scale 1:
hypotheses hold and the solver succeeds, reproducing both prices. -/
theorem getAuctionFactors_reproduces_or_fails_witness :
    (0:ℤ) ≤ 4 ∧ (0:ℤ) ≤ 0 ∧ (0:ℤ) ≤ 2 ∧ (0:ℤ) ≤ 2 ∧ (4:ℤ) ≠ 2 ∧
      ((∃ f k, getAuctionFactors 4 0 2 2 1 = .ok (f, k) ∧
          price 0 f k 1 = 4 ∧ price 2 f k 1 = 2) ∨
        getAuctionFactors 4 0 2 2 1 = .error .unsolvablePriceModel) :=
  ⟨by decide, by decide, by decide, by decide, by decide,
    getAuctionFactors_reproduces_or_fails 4 0 2 2 1
      (by decide) (by decide) (by decide) (by decide) (by decide)⟩

/-- C2: for fixed positive factor and positive constant, the price function with
the process scale constant is monotonically non-increasing in elapsed time. -/
theorem price_nonincreasing (f k e1 e2 : ℤ) (hf : 0 < f) (hk : 0 < k)
    (h1 : 0 ≤ e1) (h12 : e1 ≤ e2) :
    price e2 f k multiplier ≤ price e1 f k multiplier := by
  have hs : (0:ℤ) < multiplier := by norm_num [multiplier]
  have hN : 0 ≤ f * multiplier := le_of_lt (mul_pos hf hs)
  have hd1 : 0 < k + e1 := by omega
  have hd2 : 0 < k + e2 := by omega
  unfold price
  obtain ⟨n, hn⟩ : ∃ n : ℕ, f * multiplier = (n : ℤ) := ⟨(f * multiplier).toNat, by omega⟩
  obtain ⟨a, ha⟩ : ∃ a : ℕ, k + e1 = (a : ℤ) := ⟨(k + e1).toNat, by omega⟩
  obtain ⟨b, hb⟩ : ∃ b : ℕ, k + e2 = (b : ℤ) := ⟨(k + e2).toNat, by omega⟩
  rw [hn, ha, hb, ← Int.ofNat_fdiv, ← Int.ofNat_fdiv]
  exact Int.ofNat_le.mpr (Nat.div_le_div_left (by omega) (by omega))

/-- Witness for C2 at factor 2, constant 3, elapsed times 0 and 5. -/
theorem price_nonincreasing_witness :
    (0:ℤ) < 2 ∧ (0:ℤ) < 3 ∧ (0:ℤ) ≤ 0 ∧ (0:ℤ) ≤ 5 ∧
      price 5 2 3 multiplier ≤ price 0 2 3 multiplier :=
  ⟨by decide, by decide, by decide, by decide,
    price_nonincreasing 2 3 0 5 (by decide) (by decide) (by decide) (by decide)⟩

/-- C3: on nonnegative samples with equal prices (at any elapsed times) the
solver fails with `DegenerateSampleError` without dividing; on inputs containing
a negative price or a negative elapsed time it fails with `InvalidSampleError`. -/
theorem getAuctionFactors_error_conditions (p1 t1 p2 t2 scale : ℤ) :
    (0 ≤ p1 → 0 ≤ t1 → 0 ≤ p2 → 0 ≤ t2 → p1 = p2 →
        getAuctionFactors p1 t1 p2 t2 scale = .error .degenerateSample) ∧
      ((p1 < 0 ∨ t1 < 0 ∨ p2 < 0 ∨ t2 < 0) →
        getAuctionFactors p1 t1 p2 t2 scale = .error .invalidSample) := by
  refine ⟨fun h1 h2 h3 h4 he => ?_, fun h => ?_⟩
  · unfold getAuctionFactors
    rw [if_neg (by omega), if_pos he]
  · unfold getAuctionFactors
    rw [if_pos h]

/-- Witness for C3: equal prices 5 at elapsed times 0 and 600 give the
degenerate-sample error, and a negative price gives the invalid-sample error. -/
theorem getAuctionFactors_error_conditions_witness :
    getAuctionFactors 5 0 5 600 1 = .error .degenerateSample ∧
      getAuctionFactors (-1) 0 5 600 1 = .error .invalidSample :=
  ⟨(getAuctionFactors_error_conditions 5 0 5 600 1).1
      (by decide) (by decide) (by decide) (by decide) (by decide),
    (getAuctionFactors_error_conditions (-1) 0 5 600 1).2 (by decide)⟩

instance {ε α : Type} [DecidableEq ε] [DecidableEq α] : DecidableEq (Except ε α) := fun x y =>
  match x, y with
  | .error e, .error f =>
    if h : e = f then isTrue (by rw [h]) else isFalse (by simp [h])
  | .error _, .ok _ => isFalse (by simp)
  | .ok _, .error _ => isFalse (by simp)
  | .ok a, .ok b =>
    if h : a = b then isTrue (by rw [h]) else isFalse (by simp [h])

/-- Python-style value as it flows into a contract call argument list: either a
raw string (as produced by `str.split`) or an integer. -/
inductive PyVal where
  | s (v : String)
  | i (v : ℤ)
deriving DecidableEq

/-- Python `str.split(sep)` for a one-character separator, accumulator form:
walks the character list, cutting at each separator occurrence. -/
def pySplitAux (sep : Char) : List Char → List Char → List String
  | [], acc => [String.mk acc.reverse]
  | c :: cs, acc =>
    if c = sep then String.mk acc.reverse :: pySplitAux sep cs []
    else pySplitAux sep cs (c :: acc)

/-- Python `str.split(sep)` for a one-character separator; in particular
`"".split(sep) = [""]`. -/
def pySplit (s : String) (sep : Char) : List String := pySplitAux sep s.data []

/-- Decimal value of a digit character list, most significant digit first. -/
def digitsVal (cs : List Char) : ℕ :=
  cs.foldl (fun a c => a * 10 + (c.toNat - 48)) 0

/-- Python `int(s)` on a well-formed decimal string with an optional leading
minus sign. -/
def pyInt (s : String) : ℤ :=
  match s.data with
  | '-' :: cs => -(digitsVal cs : ℤ)
  | cs => (digitsVal cs : ℤ)

/-- Python truthiness of an optional string option: `None` and `''` are falsy,
every other string is truthy. -/
def truthy : Option String → Bool
  | none => false
  | some s => !s.data.isEmpty

/-- The script's CLI option bag (deploy_testnet.py, lines 19–81): `None`-able
string options and integer options. -/
structure Kwargs where
  chain : String
  owner : Option String
  supply : ℤ
  price_factor : ℤ
  price_constant : ℤ
  price_points : Option String
  prealloc_addresses : Option String
  prealloc_amounts : Option String
  simulation : Bool
  bidders : ℤ
  bids : ℤ
  bid_price : ℤ
  bid_interval : ℤ
deriving DecidableEq

/-- The click option defaults (lines 19–81): chain kovan, supply 10000000,
price factor 6, price constant 66, bidders 10, bids 10, bid price
50000000000000000, bid interval 5; the optional string options default to
`None` and the simulation flag to false. -/
def defaultKwargs : Kwargs where
  chain := "kovan"
  owner := none
  supply := 10000000
  price_factor := 6
  price_constant := 66
  price_points := none
  prealloc_addresses := none
  prealloc_amounts := none
  simulation := false
  bidders := 10
  bids := 10
  bid_price := 50000000000000000
  bid_interval := 5

/-- Abort causes of the option-processing phase of `main`: a solver error, or a
Python `IndexError` from indexing fewer than four comma-separated price
points. -/
inductive MainError where
  | solver (e : SolverError)
  | indexError
deriving DecidableEq

/-- Lines 96–100: when the `price_points` option is truthy it is split on
commas, its first four fields are parsed as integers and handed to
`getAuctionFactors` together with the scale `multiplier`, and the result
overwrites the `price_factor` and `price_constant` options; otherwise those two
options pass through unchanged. -/
def resolvePriceParams (kw : Kwargs) : Except MainError (ℤ × ℤ) :=
  if truthy kw.price_points then
    match pySplit ((kw.price_points).getD "") ',' with
    | x1 :: x2 :: x3 :: x4 :: _ =>
      match getAuctionFactors (pyInt x1) (pyInt x2) (pyInt x3) (pyInt x4) multiplier with
      | .ok (a, b) => .ok (a, b)
      | .error e => .error (.solver e)
    | _ => .error .indexError
  else
    .ok (kw.price_factor, kw.price_constant)

/-- The ambient chain state the script talks to: the unlocked accounts list and
whether each `check_succesful_tx` receipt wait succeeds. -/
structure Chain where
  accounts : List String
  auctionReceipt : Bool
  tokenReceipt : Bool
  setupReceipt : Bool
deriving DecidableEq

/-- Lines 109–124: a truthy `prealloc_addresses` option is split on commas;
otherwise, with at least two chain accounts, the Python slice `accounts[1:3]`
is taken; otherwise two fresh wallets are created (`createWallet` is external
and is modelled by the `wallets` address source) and prefixed with `0x`. -/
def resolvePreallocAddresses (kw : Kwargs) (accounts : List String)
    (wallets : ℕ → String) : List String :=
  if truthy kw.prealloc_addresses then
    pySplit ((kw.prealloc_addresses).getD "") ','
  else if 2 ≤ accounts.length then
    (accounts.drop 1).take 2
  else
    (List.range 2).map (fun i => "0x" ++ wallets i)

/-- Lines 126–132: a truthy `prealloc_amounts` option is split on commas and
the split substrings are used as they are — strings, neither parsed to integers
nor scaled; otherwise the integer defaults `200000 * multiplier` and
`800000 * multiplier` are used. -/
def resolvePreallocAmounts (kw : Kwargs) : List PyVal :=
  if truthy kw.prealloc_amounts then
    (pySplit ((kw.prealloc_amounts).getD "") ',').map PyVal.s
  else
    [PyVal.i (200000 * multiplier), PyVal.i (800000 * multiplier)]

/-- Line 86: the token supply deployed is the supply option scaled by the
process constant. -/
def scaledSupply (supply : ℤ) : ℤ := supply * multiplier

/-- Chain-visible events of one run of `main`, in program order. -/
inductive Event where
  | submitAuctionDeploy (f k : ℤ)
  | auctionConfirmed
  | submitTokenDeploy (supply : ℤ) (addresses : List String) (amounts : List PyVal)
  | tokenConfirmed
  | setupSubmitted
  | setupConfirmed
  | simulationStarted
deriving DecidableEq

/-- The events of lines 159–188, after the token deployment was submitted: the
token receipt wait, the `setup` transaction and, when the flag is set, the
simulation; a failed receipt wait raises and cuts the trace short. -/
def postTokenEvents (kw : Kwargs) (ch : Chain) : List Event :=
  if ch.tokenReceipt then
    Event.tokenConfirmed :: Event.setupSubmitted ::
      if ch.setupReceipt then
        Event.setupConfirmed ::
          (if kw.simulation then [Event.simulationStarted] else [])
      else []
  else []

/-- The chain-visible trace of `main` (lines 81–188): price parameters are
resolved first (a solver failure aborts before any deployment); the auction
deployment is submitted with `[price_factor, price_constant]` (line 146) and
its receipt awaited (line 148); only then is the token deployment submitted
with the scaled supply, the preallocation addresses and the preallocation
amounts (lines 153–158) and its receipt awaited (line 160); the rest follows in
`postTokenEvents`. A failed receipt wait raises out of the script and truncates
the trace; nothing ever rolls an earlier deployment back. -/
def mainEvents (kw : Kwargs) (ch : Chain) (wallets : ℕ → String) : List Event :=
  match resolvePriceParams kw with
  | .error _ => []
  | .ok (pf, pk) =>
    Event.submitAuctionDeploy pf pk ::
      if ch.auctionReceipt then
        Event.auctionConfirmed ::
          Event.submitTokenDeploy (scaledSupply kw.supply)
            (resolvePreallocAddresses kw ch.accounts wallets)
            (resolvePreallocAmounts kw) ::
          postTokenEvents kw ch
      else []

lemma truthy_some_of_ne (s : String) (hd : s.data ≠ []) : truthy (some s) = true := by
  show (!s.data.isEmpty) = true
  cases h : s.data with
  | nil => exact absurd h hd
  | cons c cs => rfl

/-- C4: when the `price_points` option holds four comma-separated integers on
which the solver succeeds with `(a, b)`, the auction deployment is submitted
with exactly `(a, b)` whatever the `price_factor` and `price_constant` options
hold — those two options are ignored; when `price_points` is absent the auction
deployment is submitted with the `price_factor` and `price_constant` options
verbatim, whose click defaults are 6 and 66. -/
theorem main_price_points_routing :
    (∀ (kw : Kwargs) (ch : Chain) (w : ℕ → String) (s x1 x2 x3 x4 : String)
        (a b pf pk : ℤ),
        kw.price_points = some s → pySplit s ',' = [x1, x2, x3, x4] →
        getAuctionFactors (pyInt x1) (pyInt x2) (pyInt x3) (pyInt x4) multiplier =
          .ok (a, b) →
        (mainEvents { kw with price_factor := pf, price_constant := pk } ch w).head? =
          some (.submitAuctionDeploy a b)) ∧
      (∀ (kw : Kwargs) (ch : Chain) (w : ℕ → String), kw.price_points = none →
          (mainEvents kw ch w).head? =
            some (.submitAuctionDeploy kw.price_factor kw.price_constant)) ∧
      defaultKwargs.price_factor = 6 ∧ defaultKwargs.price_constant = 66 := by
  refine ⟨?_, ?_, rfl, rfl⟩
  · intro kw ch w s x1 x2 x3 x4 a b pf pk hpp hsplit hsolve
    have hpp2 : ({ kw with price_factor := pf, price_constant := pk } : Kwargs).price_points
        = some s := hpp
    have hd : s.data ≠ [] := by
      intro h0
      unfold pySplit at hsplit
      rw [h0] at hsplit
      simp [pySplitAux] at hsplit
    have hres : resolvePriceParams { kw with price_factor := pf, price_constant := pk }
        = .ok (a, b) := by
      unfold resolvePriceParams
      rw [hpp2, if_pos (truthy_some_of_ne s hd), Option.getD_some, hsplit]
      dsimp only
      rw [hsolve]
    unfold mainEvents
    rw [hres]
    rfl
  · intro kw ch w hpp
    have hres : resolvePriceParams kw = .ok (kw.price_factor, kw.price_constant) := by
      unfold resolvePriceParams
      rw [hpp]
      simp [truthy]
    unfold mainEvents
    rw [hres]
    rfl

/-- Witness for C4: a four-point option computing solver parameters `(2, 1)`
overrides the explicit factor 6 and constant 66, while the default (absent)
option deploys with 6 and 66. -/
theorem main_price_points_routing_witness :
    (mainEvents { defaultKwargs with
          price_points := some "2000000000000000000,0,1000000000000000000,1",
          price_factor := 6, price_constant := 66 }
        ⟨["0xa"], true, true, true⟩ (fun _ => "")).head? =
      some (.submitAuctionDeploy 2 1) ∧
    (mainEvents defaultKwargs ⟨["0xa"], true, true, true⟩ (fun _ => "")).head? =
      some (.submitAuctionDeploy 6 66) :=
  ⟨main_price_points_routing.1
      { defaultKwargs with price_points := some "2000000000000000000,0,1000000000000000000,1" }
      ⟨["0xa"], true, true, true⟩ (fun _ => "")
      "2000000000000000000,0,1000000000000000000,1"
      "2000000000000000000" "0" "1000000000000000000" "1" 2 1 6 66
      rfl (by decide) (by decide),
    main_price_points_routing.2.1 defaultKwargs ⟨["0xa"], true, true, true⟩ (fun _ => "") rfl⟩

lemma submitTokenDeploy_not_mem_post (kw : Kwargs) (ch : Chain) (sup : ℤ)
    (ad : List String) (am : List PyVal) :
    Event.submitTokenDeploy sup ad am ∉ postTokenEvents kw ch := by
  unfold postTokenEvents
  split_ifs <;> simp

/-- C5: a token deployment submission only ever occurs directly after the
auction deployment submission and its confirmed receipt — whenever it is in the
trace, the first three events are exactly auction submission, auction
confirmation, token submission; and when the token receipt then fails, the
trace is exactly those three events: the confirmed auction deployment stays in
the trace (no rollback event exists) and the run stops. -/
theorem main_token_after_auction (kw : Kwargs) (ch : Chain) (w : ℕ → String) :
    (∀ sup ad am, Event.submitTokenDeploy sup ad am ∈ mainEvents kw ch w →
        ch.auctionReceipt = true ∧
          ∃ pf pk, (mainEvents kw ch w).take 3 =
            [Event.submitAuctionDeploy pf pk, Event.auctionConfirmed,
              Event.submitTokenDeploy sup ad am]) ∧
      (∀ pf pk, resolvePriceParams kw = .ok (pf, pk) → ch.auctionReceipt = true →
          ch.tokenReceipt = false →
          mainEvents kw ch w =
            [Event.submitAuctionDeploy pf pk, Event.auctionConfirmed,
              Event.submitTokenDeploy (scaledSupply kw.supply)
                (resolvePreallocAddresses kw ch.accounts w)
                (resolvePreallocAmounts kw)]) := by
  constructor
  · intro sup ad am hmem
    unfold mainEvents at hmem ⊢
    revert hmem
    cases hres : resolvePriceParams kw with
    | error e =>
      intro hmem
      simp at hmem
    | ok pp =>
      obtain ⟨pf, pk⟩ := pp
      cases har : ch.auctionReceipt with
      | false =>
        intro hmem
        simp at hmem
      | true =>
        intro hmem
        simp at hmem
        rcases hmem with ⟨rfl, rfl, rfl⟩ | h
        · exact ⟨rfl, pf, pk, by simp⟩
        · exact absurd h (submitTokenDeploy_not_mem_post kw ch sup ad am)
  · intro pf pk hres har htr
    unfold mainEvents postTokenEvents
    rw [hres, har, htr]
    simp

/-- Witness for C5: with a two-account chain where the auction receipt succeeds
and the token receipt fails, the run's whole trace is the three events ending in
the token submission. -/
theorem main_token_after_auction_witness :
    mainEvents defaultKwargs ⟨["0xa", "0xb"], true, false, true⟩ (fun _ => "") =
      [Event.submitAuctionDeploy 6 66, Event.auctionConfirmed,
        Event.submitTokenDeploy (scaledSupply defaultKwargs.supply)
          (resolvePreallocAddresses defaultKwargs ["0xa", "0xb"] (fun _ => ""))
          (resolvePreallocAmounts defaultKwargs)] :=
  (main_token_after_auction defaultKwargs ⟨["0xa", "0xb"], true, false, true⟩
      (fun _ => "")).2 6 66 (by decide) rfl rfl

/-- C8: the scale constant equals `10^18`, the token supply passed to the token
deployment is the supply option times exactly this constant, and the default
CLI supply of 10000000 deploys `10^25` smallest units. -/
theorem multiplier_and_scaled_supply :
    multiplier = 10 ^ 18 ∧ (∀ s : ℤ, scaledSupply s = s * multiplier) ∧
      scaledSupply 10000000 = 10 ^ 25 := by
  refine ⟨rfl, fun s => rfl, by norm_num [scaledSupply, multiplier]⟩

/-- C9: a supplied (truthy) `prealloc_amounts` option is passed through as the
comma-split substrings — strings, neither parsed nor scaled by `10^18` — while
an absent option yields the integer defaults `200000 * 10^18` and
`800000 * 10^18`; in particular passing the same whole-token numbers
`"200000,800000"` does not reproduce the default behaviour. -/
theorem prealloc_amounts_strings_vs_defaults :
    (∀ kw s, kw.prealloc_amounts = some s → s.data ≠ [] →
        resolvePreallocAmounts kw = (pySplit s ',').map PyVal.s) ∧
      (∀ kw, kw.prealloc_amounts = none →
          resolvePreallocAmounts kw =
            [PyVal.i (200000 * 10 ^ 18), PyVal.i (800000 * 10 ^ 18)]) ∧
      resolvePreallocAmounts
          { defaultKwargs with prealloc_amounts := some "200000,800000" } ≠
        resolvePreallocAmounts defaultKwargs := by
  refine ⟨?_, ?_, by decide⟩
  · intro kw s hpa hd
    unfold resolvePreallocAmounts
    rw [hpa, if_pos (truthy_some_of_ne s hd), Option.getD_some]
  · intro kw hpa
    unfold resolvePreallocAmounts
    rw [hpa]
    simp [truthy, multiplier]

/-- Witness for C9: the option value `"1,2"` is passed through as the two
substrings `"1"` and `"2"`. -/
theorem prealloc_amounts_strings_vs_defaults_witness :
    ({ defaultKwargs with prealloc_amounts := some "1,2" } : Kwargs).prealloc_amounts
        = some "1,2" ∧
      ("1,2" : String).data ≠ [] ∧
      resolvePreallocAmounts { defaultKwargs with prealloc_amounts := some "1,2" } =
        (pySplit "1,2" ',').map PyVal.s :=
  ⟨rfl, by decide,
    prealloc_amounts_strings_vs_defaults.1
      { defaultKwargs with prealloc_amounts := some "1,2" } "1,2" rfl (by decide)⟩

/-- C10: with no `prealloc_addresses` option and a chain exposing exactly two
accounts, `main` reaches the token deployment with a one-element address list
(the truncated Python slice `accounts[1:3]`) together with the two-element
default amount list — the two lists handed to `Token.deploy` have unequal
lengths. -/
theorem prealloc_length_mismatch_reachable :
    ∃ ad am,
      Event.submitTokenDeploy (scaledSupply defaultKwargs.supply) ad am ∈
          mainEvents defaultKwargs ⟨["0xa", "0xb"], true, true, true⟩ (fun _ => "") ∧
        ad.length = 1 ∧ am.length = 2 ∧ ad.length ≠ am.length :=
  ⟨["0xb"], [PyVal.i (200000 * multiplier), PyVal.i (800000 * multiplier)],
    by decide, by decide, by decide, by decide⟩

/-- Scheduler run states, spec §3. -/
inductive AuctionRunState where
  | notStarted
  | running
  | completed
  | aborted
deriving DecidableEq

/-- A recorded bid, spec §3: bidder identity, the price observed at submission
time, and the sequence index. -/
structure Bid where
  bidder : String
  observedPrice : ℤ
  sequenceIndex : ℕ
deriving DecidableEq

/-- Chain-visible events of one scheduler iteration, spec §4.3: the blocking
price read, the bid submission, and the confirmed receipt, each tagged with the
bid's sequence index. -/
inductive SimEvent where
  | readPrice (k : ℕ)
  | submit (k : ℕ)
  | confirm (k : ℕ)
deriving DecidableEq

/-- One confirmed scheduler iteration at sequence index `k` (spec §4.3 steps
1–5), prepended onto the remainder of the run: the bidder is chosen round-robin
from the ordered bidder list, the bid records the price observed at submission
time, and the recorded trace is read, submit, confirm. -/
def simStep (bidders : List String) (priceAt : ℕ → ℤ) (k : ℕ)
    (rest : List Bid × AuctionRunState × List SimEvent) :
    List Bid × AuctionRunState × List SimEvent :=
  (⟨bidders.getD (k % bidders.length) "", priceAt k, k⟩ :: rest.1, rest.2.1,
    SimEvent.readPrice k :: SimEvent.submit k :: SimEvent.confirm k :: rest.2.2)

/-- Modelled from the spec: the scheduler loop of §4.3 starting at sequence
index `k` with `n` bids still to issue. Each iteration: stop as `Completed`
when the external auction reports its terminal condition (the `ended` oracle);
otherwise read the current price, submit the round-robin bidder's bid, and
block on confirmation (the `confirmOk` oracle) — on confirmation failure stop
as `Aborted`, recording no bid and issuing nothing further; on success record
the bid and only then advance to index `k + 1`. -/
def runSimAux (bidders : List String) (priceAt : ℕ → ℤ) (confirmOk ended : ℕ → Bool) :
    ℕ → ℕ → List Bid × AuctionRunState × List SimEvent
  | _, 0 => ([], .completed, [])
  | k, n + 1 =>
    if ended k then ([], .completed, [])
    else if confirmOk k then
      simStep bidders priceAt k (runSimAux bidders priceAt confirmOk ended (k + 1) n)
    else
      ([], .aborted, [SimEvent.readPrice k, SimEvent.submit k])

/-- Modelled from the spec: `auction_simulation` (imported by the script from
the `simulation` module, whose source is not included): at most `bidCount` bids
driven strictly sequentially from sequence index 0, returning the recorded
bids, the terminal run state and the event trace. -/
def auction_simulation (bidders : List String) (priceAt : ℕ → ℤ)
    (confirmOk ended : ℕ → Bool) (bidCount : ℕ) :
    List Bid × AuctionRunState × List SimEvent :=
  runSimAux bidders priceAt confirmOk ended 0 bidCount

lemma runSimAux_submit_needs_confirms (bidders : List String) (priceAt : ℕ → ℤ)
    (confirmOk ended : ℕ → Bool) :
    ∀ n k p q, (runSimAux bidders priceAt confirmOk ended k n).2.2 = p ++ q →
      ∀ a, SimEvent.submit a ∈ p →
        k ≤ a ∧ ∀ b, k ≤ b → b < a → SimEvent.confirm b ∈ p := by
  intro n
  induction n with
  | zero =>
    intro k p q hpq a ha
    cases p with
    | nil => simp at ha
    | cons x xs => simp [runSimAux] at hpq
  | succ n ih =>
    intro k p q hpq a ha
    simp only [runSimAux] at hpq
    by_cases he : ended k = true
    · rw [if_pos he] at hpq
      cases p with
      | nil => simp at ha
      | cons x xs => simp at hpq
    · rw [if_neg he] at hpq
      by_cases hc : confirmOk k = true
      · rw [if_pos hc] at hpq
        simp only [simStep] at hpq
        rcases List.cons_eq_append_iff.mp hpq with ⟨rfl, -⟩ | ⟨p1, rfl, hpq1⟩
        · simp at ha
        · rcases List.cons_eq_append_iff.mp hpq1 with ⟨rfl, -⟩ | ⟨p2, rfl, hpq2⟩
          · simp at ha
          · rcases List.cons_eq_append_iff.mp hpq2 with ⟨rfl, -⟩ | ⟨p3, rfl, hpq3⟩
            · simp at ha
              obtain rfl : a = k := ha
              exact ⟨le_rfl,
                fun b hb1 hb2 => absurd (Nat.lt_of_le_of_lt hb1 hb2) (Nat.lt_irrefl _)⟩
            · simp only [List.mem_cons] at ha
              rcases ha with h | h | h | h
              · exact absurd h (by simp)
              · obtain rfl : a = k := SimEvent.submit.inj h
                exact ⟨le_rfl,
                  fun b hb1 hb2 => absurd (Nat.lt_of_le_of_lt hb1 hb2) (Nat.lt_irrefl _)⟩
              · exact absurd h (by simp)
              · obtain ⟨h1, h2⟩ := ih (k + 1) p3 q hpq3 a h
                refine ⟨by omega, fun b hb1 hb2 => ?_⟩
                by_cases hbk : b = k
                · subst hbk
                  exact List.mem_cons_of_mem _ (List.mem_cons_of_mem _ (List.mem_cons_self _ _))
                · exact List.mem_cons_of_mem _ (List.mem_cons_of_mem _
                    (List.mem_cons_of_mem _ (h2 b (by omega) hb2)))
      · rw [if_neg hc] at hpq
        dsimp only at hpq
        rcases List.cons_eq_append_iff.mp hpq with ⟨rfl, -⟩ | ⟨p1, rfl, hpq1⟩
        · simp at ha
        · rcases List.cons_eq_append_iff.mp hpq1 with ⟨rfl, -⟩ | ⟨p2, rfl, hpq2⟩
          · simp at ha
          · have hp2 : p2 = [] := by
              cases p2 with
              | nil => rfl
              | cons y ys => simp at hpq2
            subst hp2
            simp at ha
            obtain rfl : a = k := ha
            exact ⟨le_rfl,
              fun b hb1 hb2 => absurd (Nat.lt_of_le_of_lt hb1 hb2) (Nat.lt_irrefl _)⟩

/-- C6: bids are issued strictly sequentially — in every prefix of the
scheduler's event trace that contains the submission of bid `k + 1`, the
confirmation of bid `k` has already occurred, so bid `k + 1` is never submitted
before bid `k` is confirmed and no two bid transactions are in flight at
once. -/
theorem auction_simulation_sequential (bidders : List String) (priceAt : ℕ → ℤ)
    (confirmOk ended : ℕ → Bool) (bidCount k : ℕ) (p q : List SimEvent)
    (hpq : (auction_simulation bidders priceAt confirmOk ended bidCount).2.2 = p ++ q)
    (ha : SimEvent.submit (k + 1) ∈ p) : SimEvent.confirm k ∈ p :=
  ((runSimAux_submit_needs_confirms bidders priceAt confirmOk ended bidCount 0 p q hpq
      (k + 1) ha).2) k (Nat.zero_le k) (Nat.lt_succ_self k)

/-- Witness for C6: a three-bid run whose full trace is a prefix of itself; the
submission of bid 1 is in it, and so is the confirmation of bid 0. -/
theorem auction_simulation_sequential_witness :
    (auction_simulation ["A", "B"] (fun _ => 50) (fun _ => true) (fun _ => false) 3).2.2 =
        [SimEvent.readPrice 0, SimEvent.submit 0, SimEvent.confirm 0,
          SimEvent.readPrice 1, SimEvent.submit 1, SimEvent.confirm 1,
          SimEvent.readPrice 2, SimEvent.submit 2, SimEvent.confirm 2] ++ [] ∧
      SimEvent.submit (0 + 1) ∈
        [SimEvent.readPrice 0, SimEvent.submit 0, SimEvent.confirm 0,
          SimEvent.readPrice 1, SimEvent.submit 1, SimEvent.confirm 1,
          SimEvent.readPrice 2, SimEvent.submit 2, SimEvent.confirm 2] ∧
      SimEvent.confirm 0 ∈
        [SimEvent.readPrice 0, SimEvent.submit 0, SimEvent.confirm 0,
          SimEvent.readPrice 1, SimEvent.submit 1, SimEvent.confirm 1,
          SimEvent.readPrice 2, SimEvent.submit 2, SimEvent.confirm 2] :=
  ⟨by decide, by decide,
    auction_simulation_sequential ["A", "B"] (fun _ => 50) (fun _ => true) (fun _ => false)
      3 0 _ [] (by decide) (by decide)⟩

/-- The expected event trace of `m` consecutive confirmed scheduler iterations
starting at sequence index `k`. -/
def seqTrace : ℕ → ℕ → List SimEvent
  | _, 0 => []
  | k, m + 1 =>
    SimEvent.readPrice k :: SimEvent.submit k :: SimEvent.confirm k :: seqTrace (k + 1) m

/-- The expected recorded bids of `m` consecutive confirmed scheduler
iterations starting at sequence index `k`. -/
def seqBids (bidders : List String) (priceAt : ℕ → ℤ) : ℕ → ℕ → List Bid
  | _, 0 => []
  | k, m + 1 =>
    ⟨bidders.getD (k % bidders.length) "", priceAt k, k⟩ ::
      seqBids bidders priceAt (k + 1) m

lemma seqBids_length (bidders : List String) (priceAt : ℕ → ℤ) :
    ∀ k m, (seqBids bidders priceAt k m).length = m := by
  intro k m
  induction m generalizing k with
  | zero => rfl
  | succ m ih => simp [seqBids, ih]

lemma runSimAux_abort_eq (bidders : List String) (priceAt : ℕ → ℤ)
    (confirmOk ended : ℕ → Bool) :
    ∀ m k n, m < n → (∀ i, i < m → confirmOk (k + i) = true) →
      (∀ i, i ≤ m → ended (k + i) = false) → confirmOk (k + m) = false →
      runSimAux bidders priceAt confirmOk ended k n =
        (seqBids bidders priceAt k m, .aborted,
          seqTrace k m ++ [SimEvent.readPrice (k + m), SimEvent.submit (k + m)]) := by
  intro m
  induction m with
  | zero =>
    intro k n hmn hok hend hfail
    obtain ⟨n', rfl⟩ : ∃ n', n = n' + 1 := ⟨n - 1, by omega⟩
    have he : ended k = false := by simpa using hend 0 (by omega)
    have hc : confirmOk k = false := by simpa using hfail
    simp only [runSimAux, seqBids, seqTrace]
    rw [if_neg (by simp [he]), if_neg (by simp [hc])]
    simp
  | succ m ih =>
    intro k n hmn hok hend hfail
    obtain ⟨n', rfl⟩ : ∃ n', n = n' + 1 := ⟨n - 1, by omega⟩
    have he : ended k = false := by simpa using hend 0 (by omega)
    have hc : confirmOk k = true := by simpa using hok 0 (by omega)
    have hrec := ih (k + 1) n' (by omega)
      (fun i hi => by
        rw [show k + 1 + i = k + (i + 1) from by omega]
        exact hok (i + 1) (by omega))
      (fun i hi => by
        rw [show k + 1 + i = k + (i + 1) from by omega]
        exact hend (i + 1) (by omega))
      (by
        rw [show k + 1 + m = k + (m + 1) from by omega]
        exact hfail)
    simp only [runSimAux]
    rw [if_neg (by simp [he]), if_pos hc, hrec]
    have harith : k + 1 + m = k + (m + 1) := by omega
    simp [simStep, seqBids, seqTrace, harith]

/-- C7: if the first `m` confirmations succeed (the auction never signalling
its terminal condition up to there) and the confirmation of the next — the
`(m+1)`-th — submission fails, the scheduler ends in the `Aborted` state having
recorded exactly the `m` previously confirmed bids, and its trace stops at the
failed submission: no later bid is ever issued. -/
theorem auction_simulation_abort (bidders : List String) (priceAt : ℕ → ℤ)
    (confirmOk ended : ℕ → Bool) (n m : ℕ) (hmn : m < n)
    (hok : ∀ i, i < m → confirmOk i = true) (hend : ∀ i, i ≤ m → ended i = false)
    (hfail : confirmOk m = false) :
    auction_simulation bidders priceAt confirmOk ended n =
        (seqBids bidders priceAt 0 m, .aborted,
          seqTrace 0 m ++ [SimEvent.readPrice m, SimEvent.submit m]) ∧
      (seqBids bidders priceAt 0 m).length = m := by
  constructor
  · unfold auction_simulation
    have h := runSimAux_abort_eq bidders priceAt confirmOk ended m 0 n hmn
      (fun i hi => by simpa using hok i hi) (fun i hi => by simpa using hend i hi)
      (by simpa using hfail)
    simpa using h
  · exact seqBids_length bidders priceAt 0 m

/-- Witness for C7, spec §8 Scenario 4: a ten-bid simulation whose confirmation
oracle times out on the fourth submission (index 3) ends `Aborted` with exactly
3 recorded bids. -/
theorem auction_simulation_abort_witness :
    auction_simulation ["A", "B", "C"] (fun _ => 7) (fun i => decide (i < 3))
          (fun _ => false) 10 =
        (seqBids ["A", "B", "C"] (fun _ => 7) 0 3, .aborted,
          seqTrace 0 3 ++ [SimEvent.readPrice 3, SimEvent.submit 3]) ∧
      (seqBids ["A", "B", "C"] (fun _ => 7) 0 3).length = 3 :=
  auction_simulation_abort ["A", "B", "C"] (fun _ => 7) (fun i => decide (i < 3))
    (fun _ => false) 10 3 (by decide) (fun i hi => by simpa using hi)
    (fun i hi => rfl) (by decide)

end DeployTestnet
